import Mathlib

/-!
# Traffic HUD — verification of the natural-language specification

Shallow embedding of the `traffic-hud` repository (React/TypeScript frontend
plus the tracking/zoning/counting engine described by the spec).  Frontend
code (`frontend/src/**`) is embedded directly from source; the backend engine
(tracker, zone engine, crossing detector, event builder, TTL reaper) is not
present in the repository snapshot, so those components are modelled from the
spec's own algorithm descriptions, marked `Modelled from the spec:`.

JavaScript strings are embedded as `List Char` so that prefix tests and
splitting keep their exact source semantics (including empty-string
falsiness in conditions such as `if (!path)`).
-/

namespace TrafficHud

/-- JavaScript string values, embedded as character lists. -/
abbrev JStr := List Char

/-- Embed a Lean string literal as a JS string value. -/
def js (s : String) : JStr := s.data

/-- JS truthiness of a string: the empty string is falsy. -/
def jsTruthyStr (s : JStr) : Bool := !s.isEmpty

/-- JS truthiness of a nullable string (`null`/`undefined` and `''` falsy). -/
def jsTruthy : Option JStr → Bool
  | none => false
  | some s => jsTruthyStr s

/-- `s.startsWith(pre)` on JS strings. -/
def startsWith (s pre : JStr) : Bool := pre.isPrefixOf s

/-- `s.split('/')` on JS strings: splits on `'/'`, never returns an empty list. -/
def splitSlash : JStr → List JStr
  | [] => [[]]
  | c :: rest =>
    let tail := splitSlash rest
    if c = '/' then [] :: tail
    else match tail with
      | [] => [[c]]
      | seg :: segs => (c :: seg) :: segs

/-- `s.split('/').pop()` — the final path segment (`''` for the empty path;
`splitSlash` never returns `[]`, so the default is never used). -/
def lastSegment (s : JStr) : JStr := (splitSlash s).getLastD []

/-! ## Snapshot-URL helpers (frontend)

`EventModal.tsx` and `SidePanel.tsx` each define a local `getSnapshotUrl`.
Both take a `string | null` and return a URL string or `null`. -/

/-- `getSnapshotUrl` from `frontend/src/components/EventModal.tsx`:
```js
if (!path) return null
if (path.startsWith('http')) return path
if (path.startsWith('/snapshots/')) return path
if (path.startsWith('snapshots/')) return `/${path}`
return `/snapshots/${path.split('/').pop()}`
``` -/
def getSnapshotUrlModal (path : Option JStr) : Option JStr :=
  match path with
  | none => none
  | some p =>
    if ¬ jsTruthyStr p then none
    else if startsWith p (js ("http")) then some p
    else if startsWith p (js ("/snapshots/")) then some p
    else if startsWith p (js ("snapshots/")) then some ('/' :: p)
    else some (js ("/snapshots/") ++ lastSegment p)

/-- `getSnapshotUrl` from `frontend/src/components/SidePanel.tsx`:
```js
if (!path) return null
if (path.startsWith('http')) return path
return path.startsWith('/') ? path : `/${path}`
``` -/
def getSnapshotUrlPanel (path : Option JStr) : Option JStr :=
  match path with
  | none => none
  | some p =>
    if ¬ jsTruthyStr p then none
    else if startsWith p (js ("http")) then some p
    else if startsWith p (js ("/")) then some p
    else some ('/' :: p)

/-! ## Frontend data model

`frontend/src/types.ts` declares the `TrafficEvent` interface.  The runtime
payload delivered over the WebSocket is typed `any`, and `EventModal.tsx` /
`SidePanel.tsx` additionally read `plate_number` and `plate_snapshot_path`
off the event object (absent properties read as `undefined`), so the runtime
payload record carries those two extra optional fields. -/

/-- The declared field inventory of `interface TrafficEvent` in
`frontend/src/types.ts`: field name paired with whether the declared type is
nullable (`… | null`). -/
def trafficEventFields : List (String × Bool) :=
  [("id", false), ("ts", false), ("side", false), ("lane", false),
   ("direction", false), ("vehicle_type", false), ("color", false),
   ("make_model", false), ("make_model_conf", true),
   ("snapshot_path", true), ("bbox", true), ("track_id", false)]

/-- Runtime event record as the frontend components consume it: the twelve
declared `TrafficEvent` fields (with `side` a plain string, since the
WebSocket payload is `any` and `App.tsx` only compares it to `'left'`), plus
the two plate properties that `EventModal.tsx`/`SidePanel.tsx` read
dynamically off the object. -/
structure EventPayload where
  id : Int
  ts : JStr
  side : JStr
  lane : Int
  direction : JStr
  vehicle_type : JStr
  color : JStr
  make_model : JStr
  make_model_conf : Option ℚ
  snapshot_path : Option JStr
  bbox : Option JStr
  track_id : Int
  plate_number : Option JStr
  plate_snapshot_path : Option JStr
  deriving DecidableEq, Repr

/-- The `side` union type `'left' | 'right'` of `types.ts`. -/
inductive Side where
  | left
  | right
  deriving DecidableEq, Repr

/-- `interface TrafficEvent` from `frontend/src/types.ts`, embedded verbatim:
`make_model` is a plain `string` (not nullable); `make_model_conf`,
`snapshot_path` and `bbox` are nullable. -/
structure TrafficEvent where
  id : Int
  ts : JStr
  side : Side
  lane : Int
  direction : JStr
  vehicle_type : JStr
  color : JStr
  make_model : JStr
  make_model_conf : Option ℚ
  snapshot_path : Option JStr
  bbox : Option JStr
  track_id : Int
  deriving DecidableEq, Repr

/-- A serialized field value of an event record (as it appears in the JSON
delivered to the UI): a number, a string, or `null`. -/
inductive FieldVal where
  | num (q : ℚ)
  | str (s : JStr)
  | null
  deriving DecidableEq, Repr

/-- Whether a serialized field value is `null`. -/
def FieldVal.isNull : FieldVal → Bool
  | .null => true
  | _ => false

/-- Serialization of a nullable string field. -/
def optStrVal : Option JStr → FieldVal
  | none => .null
  | some s => .str s

/-- Serialization of a nullable number field. -/
def optNumVal : Option ℚ → FieldVal
  | none => .null
  | some q => .num q

/-- The `side` value as the string it is serialized to. -/
def Side.str : Side → JStr
  | .left => js ("left")
  | .right => js ("right")

/-- Serialization of a `TrafficEvent` record into its (field name, value)
pairs, in declaration order of `types.ts`. -/
def TrafficEvent.toFields (e : TrafficEvent) : List (String × FieldVal) :=
  [("id", .num e.id), ("ts", .str e.ts), ("side", .str e.side.str),
   ("lane", .num e.lane), ("direction", .str e.direction),
   ("vehicle_type", .str e.vehicle_type), ("color", .str e.color),
   ("make_model", .str e.make_model),
   ("make_model_conf", optNumVal e.make_model_conf),
   ("snapshot_path", optStrVal e.snapshot_path),
   ("bbox", optStrVal e.bbox), ("track_id", .num e.track_id)]

/-- The event-record field inventory the spec's output contract lists:
`{id, ts, side, lane, direction, vehicle_type, color, make_model,
make_model_confidence, snapshot_path|null, bbox, track_id}` with
`make_model`/`make_model_confidence` nullable per the enrichment contract.
This definition follows the SPEC's words (for comparison with
`trafficEventFields`, which follows the source). -/
def specContractFields : List (String × Bool) :=
  [("id", false), ("ts", false), ("side", false), ("lane", false),
   ("direction", false), ("vehicle_type", false), ("color", false),
   ("make_model", true), ("make_model_confidence", true),
   ("snapshot_path", true), ("bbox", false), ("track_id", false)]

/-! ## EventModal rendering (frontend)

`EventModal.tsx` renders a snapshot section, a **License Plate section**, and
a table of rows.  The rendered content is modelled as a list of items. -/

/-- `s.split(sep)` on JS strings, for a non-empty separator. -/
def splitOnSep (sep : JStr) (acc : JStr) : JStr → List JStr
  | [] => [acc.reverse]
  | c :: rest =>
    if sep.isPrefixOf (c :: rest) then
      acc.reverse :: splitOnSep sep [] (rest.drop (sep.length - 1))
    else splitOnSep sep (c :: acc) rest
  termination_by s => s.length
  decreasing_by
    · simp only [List.length_drop, List.length_cons]; omega
    · simp only [List.length_cons]; omega

/-- `s.toUpperCase()` on JS strings (ASCII content here). -/
def toUpper (s : JStr) : JStr := s.map Char.toUpper

/-- One rendered item of the modal's content.  `timeText ts` stands for the
locale-formatted rendering `formatTime(ts)` of the raw timestamp (the exact
human-readable string depends on the runtime locale environment and is out
of scope); `numText n` stands for JS number-to-string display. -/
inductive RenderItem where
  | text (s : JStr)
  | image (src : JStr) (alt : String)
  | timeText (ts : JStr)
  | numText (n : Int)
  deriving DecidableEq, Repr

/-- The Brand cell: `event.make_model ? event.make_model.split(' - ')[0] : 'Unknown'`. -/
def brandCell (m : JStr) : JStr :=
  if jsTruthyStr m then (splitOnSep (js (" - ")) [] m).headD [] else js ("Unknown")

/-- The Body Type cell:
`event.make_model ? (event.make_model.split(' - ')[1] || 'Vehicle') : 'Vehicle'`. -/
def bodyTypeCell (m : JStr) : JStr :=
  if jsTruthyStr m then
    match (splitOnSep (js (" - ")) [] m).get? 1 with
    | some s => if jsTruthyStr s then s else js ("Vehicle")
    | none => js ("Vehicle")
  else js ("Vehicle")

/-- The plate-number display `event.plate_number || 'XXXXX'`. -/
def plateNumberCell (e : EventPayload) : JStr :=
  if jsTruthy e.plate_number then e.plate_number.getD [] else js ("XXXXX")

/-- The License Plate section of `EventModal.tsx` (lines 73–93): a label, a
plate image when `event.plate_snapshot_path` is truthy (else a placeholder),
and the plate-number text `event.plate_number || 'XXXXX'`. -/
def plateSection (e : EventPayload) : List RenderItem :=
  RenderItem.text (js ("License Plate:")) ::
  (if jsTruthy e.plate_snapshot_path then
    [RenderItem.image ((getSnapshotUrlModal e.plate_snapshot_path).getD []) "License plate"]
  else
    [RenderItem.text (js ("No plate image"))]) ++
  [RenderItem.text (plateNumberCell e)]

/-- The full rendered content of `EventModal.tsx`: snapshot section, License
Plate section, then the table rows (Date & Time, Side, Brand, Body Type,
Color, ID). -/
def eventModalContent (e : EventPayload) : List RenderItem :=
  (if jsTruthy e.snapshot_path then
    [RenderItem.image ((getSnapshotUrlModal e.snapshot_path).getD []) "Vehicle snapshot"]
  else
    [RenderItem.text (js ("Vehicle snapshot not available"))]) ++
  plateSection e ++
  [RenderItem.text (js ("Date & Time:")), RenderItem.timeText e.ts,
   RenderItem.text (js ("Side:")), RenderItem.text (toUpper e.side),
   RenderItem.text (js ("Brand:")), RenderItem.text (brandCell e.make_model),
   RenderItem.text (js ("Body Type:")), RenderItem.text (bodyTypeCell e.make_model),
   RenderItem.text (js ("Color:")), RenderItem.text (toUpper e.color),
   RenderItem.text (js ("ID:")), RenderItem.numText e.track_id]

/-! ## `App.tsx` event handling

The WebSocket subscription in `App.tsx` (lines 83–100) handles
`event_created` messages: it prepends the payload to the matching side's
list and truncates with `.slice(0, 50)`. -/

/-- The per-side event lists held by `App.tsx` state. -/
structure AppState where
  leftEvents : List EventPayload
  rightEvents : List EventPayload
  deriving DecidableEq, Repr

/-- `[event, ...prev].slice(0, 50)` — prepend the new event and keep the
first 50 entries. -/
def insertEvent (e : EventPayload) (prev : List EventPayload) : List EventPayload :=
  (e :: prev).take 50

/-- The `event_created` branch of the WebSocket subscription handler in
`App.tsx`: `if (event.side === 'left')` update the left list, `else`
(any other side value) update the right list. -/
def handleEventCreated (st : AppState) (e : EventPayload) : AppState :=
  if e.side = js ("left") then
    { st with leftEvents := insertEvent e st.leftEvents }
  else
    { st with rightEvents := insertEvent e st.rightEvents }

/-! ## `WebSocketService` reconnection (frontend)

`frontend/src/services/websocket.ts`: `reconnectAttempts` starts at 0,
`maxReconnectAttempts = 5`, `reconnectDelay = 3000`.  `onopen` resets the
counter to 0; `onclose` (and a failure inside `connect`) call
`attemptReconnect`, which schedules a reconnect after `reconnectDelay` ms
only while `reconnectAttempts < maxReconnectAttempts`. -/

/-- `maxReconnectAttempts` field initializer of `WebSocketService`. -/
def maxReconnectAttempts : Nat := 5

/-- `reconnectDelay` field initializer of `WebSocketService` (milliseconds). -/
def reconnectDelay : Nat := 3000

/-- Connection-lifecycle events observed by the service: a successful
`onopen`, and a disconnect (`onclose`) or an error thrown while creating the
socket — both of which invoke `attemptReconnect`. -/
inductive WsEvent where
  | opened
  | closed
  | connectError
  deriving DecidableEq, Repr

/-- `attemptReconnect`: given the current `reconnectAttempts` counter,
returns the new counter and `some delay` when a reconnect is scheduled
(after `reconnectDelay` ms), `none` when the service gives up. -/
def attemptReconnect (attempts : Nat) : Nat × Option Nat :=
  if attempts < maxReconnectAttempts then (attempts + 1, some reconnectDelay)
  else (attempts, none)

/-- One step of the service's counter state machine: `onopen` resets the
counter to 0 and schedules nothing; `onclose`/connect-failure run
`attemptReconnect`. -/
def wsStep (attempts : Nat) : WsEvent → Nat × Option Nat
  | .opened => (0, none)
  | .closed => attemptReconnect attempts
  | .connectError => attemptReconnect attempts

/-- Run the service over a trace of lifecycle events, returning the final
counter and the list of scheduled reconnect delays (in order). -/
def wsRun (attempts : Nat) : List WsEvent → Nat × List Nat
  | [] => (attempts, [])
  | ev :: rest =>
    let a := wsStep attempts ev
    let r := wsRun a.1 rest
    (r.1, (match a.2 with | some d => [d] | none => []) ++ r.2)

/-! ## Geometry and Zone Engine

The backend engine (tracker, zone engine, crossing detector, event builder,
TTL reaper) is not present in the repository snapshot — `backend/` holds
only a video-download script — so these components are modelled from the
spec's component design (§4) and data model (§3). -/

/-- Modelled from the spec: a 2-D position in pixel space (the engine's
points: detection-box corners, centroids, polygon vertices). -/
structure Pt where
  x : Int
  y : Int
  deriving DecidableEq, Repr

/-- Cross product of vectors `a - o` and `b - o`; its sign places `b`
relative to the directed line `o → a`. -/
def cross (o a b : Pt) : Int :=
  (a.x - o.x) * (b.y - o.y) - (a.y - o.y) * (b.x - o.x)

/-- Whether `p` lies on the closed segment from `a` to `b`. -/
def onSegment (a b p : Pt) : Bool :=
  cross a b p = 0 ∧ min a.x b.x ≤ p.x ∧ p.x ≤ max a.x b.x ∧
    min a.y b.y ≤ p.y ∧ p.y ≤ max a.y b.y

/-- The directed edges of a polygon given as an ordered vertex list
(wrapping around at the end). -/
def polyEdges (poly : List Pt) : List (Pt × Pt) := poly.zip (poly.rotate 1)

/-- Winding-number contribution of one directed edge at point `p`. -/
def windingContrib (p : Pt) (e : Pt × Pt) : Int :=
  if e.1.y ≤ p.y ∧ p.y < e.2.y ∧ 0 < cross e.1 e.2 p then 1
  else if e.2.y ≤ p.y ∧ p.y < e.1.y ∧ cross e.1 e.2 p < 0 then -1
  else 0

/-- Whether `p` lies on the boundary of the polygon. -/
def onBoundary (p : Pt) (poly : List Pt) : Bool :=
  (polyEdges poly).any (fun e => onSegment e.1 e.2 p)

/-- Modelled from the spec: point-in-polygon via the winding number,
boundary-inclusive (a point exactly on an edge counts as inside, applied
consistently to avoid flapping between lanes). -/
def pointInPolygon (p : Pt) (poly : List Pt) : Bool :=
  onBoundary p poly || ((polyEdges poly).map (windingContrib p)).sum ≠ 0

/-- Direction tag assigned to a counting line in the `GeometryConfig`. -/
inductive DirTag where
  | toward_camera
  | away_from_camera
  deriving DecidableEq, Repr

/-- Modelled from the spec: one lane polygon with its integer id. -/
structure Lane where
  id : Nat
  poly : List Pt
  deriving DecidableEq, Repr

/-- Modelled from the spec: one side's geometry — ROI polygon, counting-line
segment with its direction tag, and the ordered lane polygons. -/
structure SideCfg where
  name : Side
  roi : List Pt
  lineA : Pt
  lineB : Pt
  tag : DirTag
  lanes : List Lane
  deriving DecidableEq, Repr

/-- Modelled from the spec: the immutable per-deployment geometry,
shared read-only by Zone Engine and Crossing Detector. -/
structure GeometryConfig where
  sides : List SideCfg
  deriving DecidableEq, Repr

/-- The side whose ROI polygon contains `p`, if any (first match in
configured order). -/
def resolveSide (g : GeometryConfig) (p : Pt) : Option SideCfg :=
  g.sides.find? (fun sc => pointInPolygon p sc.roi)

/-- The first lane polygon of `sc` containing `p`, if any (first matching
lane in configured order, boundary-inclusive). -/
def resolveLane (sc : SideCfg) (p : Pt) : Option Nat :=
  (sc.lanes.find? (fun ln => pointInPolygon p ln.poly)).map Lane.id

/-- Modelled from the spec: the Zone Engine's result `{side, lane,
inside_roi}`. -/
structure ZoneResult where
  side : Option Side
  lane : Option Nat
  inside_roi : Bool
  deriving DecidableEq, Repr

/-- Modelled from the spec: `resolve(position)` — a pure function of the
geometry config; ROI membership first, then the first matching lane; a
position outside every ROI yields `inside_roi = false`. -/
def resolve (g : GeometryConfig) (p : Pt) : ZoneResult :=
  match resolveSide g p with
  | none => ⟨none, none, false⟩
  | some sc => ⟨some sc.name, resolveLane sc p, true⟩

/-! ## Tracks and the Crossing Detector -/

/-- A bounding box `(x, y, w, h)` in pixel space. -/
structure Box where
  x : Int
  y : Int
  w : Int
  h : Int
  deriving DecidableEq, Repr

/-- Centroid of a bounding box. -/
def boxCentroid (b : Box) : Pt := ⟨b.x + b.w / 2, b.y + b.h / 2⟩

/-- Modelled from the spec: the track lifecycle states. -/
inductive TrackState where
  | tentative
  | confirmed
  | lost
  | expired
  deriving DecidableEq, Repr

/-- Modelled from the spec: a persistent track — monotonically assigned
integer identity, bounded history of recent positions (centroid +
timestamp, newest first), lifecycle state, frames-since-last-match counter,
consecutive-match counter, and the sticky `counted` flag guaranteeing
at-most-one crossing emission. -/
structure Track where
  id : Nat
  history : List (Pt × Int)
  lastBox : Box
  state : TrackState
  unmatched : Nat
  hits : Nat
  counted : Bool
  deriving DecidableEq, Repr

/-- The bounded history window: the last 30 samples are retained. -/
def historyWindow : Nat := 30

/-- One observation of a track: matched-detection centroid, frame
timestamp, and the matched bounding box. -/
structure Obs where
  pos : Pt
  ts : Int
  box : Box
  deriving DecidableEq, Repr

/-- Append an observation to a track's bounded history window. -/
def trackObserve (tr : Track) (o : Obs) : Track :=
  { tr with history := ((o.pos, o.ts) :: tr.history).take historyWindow,
            lastBox := o.box }

/-- Sign of the cross product of the line direction vector and the vector
from the line endpoint `a` to the point `p`. -/
def lineSign (a b p : Pt) : Int := Int.sign (cross a b p)

/-- Modelled from the spec: the data a firing crossing returns for event
construction — side, lane, configured direction, timestamp and bbox. -/
structure CrossingResult where
  side : Side
  lane : Option Nat
  direction : DirTag
  ts : Int
  bbox : Box
  deriving DecidableEq, Repr

/-- Modelled from the spec: `check(track, geometry)`.  For the side the
track currently resolves to, compare the line-sign of the previous and
current samples; a crossing fires when the sign flips and the track is not
already `counted`.  The direction is read off the side's configured tag —
the sign change only gates whether a crossing happened.  Fewer than two
samples, or a position outside every ROI, yields no crossing. -/
def check (g : GeometryConfig) (tr : Track) : Option CrossingResult :=
  if tr.counted then none
  else
    match tr.history with
    | (curr, ts) :: (prev, _) :: _ =>
      match resolveSide g curr with
      | none => none
      | some sc =>
        if lineSign sc.lineA sc.lineB prev * lineSign sc.lineA sc.lineB curr < 0 then
          some ⟨sc.name, resolveLane sc curr, sc.tag, ts, tr.lastBox⟩
        else none
    | _ => none

/-- One crossing-detector step for a track: record the new observation,
run `check`, and on firing set `counted := true` (the idempotent guard)
and emit the crossing result. -/
def crossingStep (g : GeometryConfig) (tr : Track) (o : Obs) : Track × Option CrossingResult :=
  let tr' := trackObserve tr o
  match check g tr' with
  | some c => ({ tr' with counted := true }, some c)
  | none => (tr', none)

/-- Feed a whole observation sequence to one track, collecting every
crossing result it emits. -/
def runTrack (g : GeometryConfig) (tr : Track) : List Obs → Track × List CrossingResult
  | [] => (tr, [])
  | o :: os =>
    let s := crossingStep g tr o
    let r := runTrack g s.1 os
    (r.1, (match s.2 with | some c => [c] | none => []) ++ r.2)

/-! ## Tracker -/

/-- Modelled from the spec: a per-frame detection — bounding box, class
label, confidence score.  Detector input is wholly untrusted. -/
structure Detection where
  box : Box
  cls : String
  conf : ℚ
  deriving DecidableEq, Repr

/-- Modelled from the spec: a detection survives input validation when its
confidence meets the configured minimum and its box has positive width and
height; malformed boxes and low-confidence detections are filtered before
association, never causing a crash. -/
def validDetection (minConf : ℚ) (d : Detection) : Bool :=
  minConf ≤ d.conf ∧ 0 < d.box.w ∧ 0 < d.box.h

/-- An exact fraction used as an association score (IoU or negated squared
centroid distance), kept unreduced with a positive denominator. -/
structure Frac where
  num : Int
  den : Int
  deriving DecidableEq, Repr

/-- `a ≤ b` on scores (cross-multiplied; denominators are positive). -/
def fracLe (a b : Frac) : Bool := a.num * b.den ≤ b.num * a.den

/-- Intersection area of two boxes (0 when they do not overlap). -/
def interArea (b1 b2 : Box) : Int :=
  max 0 (min (b1.x + b1.w) (b2.x + b2.w) - max b1.x b2.x) *
    max 0 (min (b1.y + b1.h) (b2.y + b2.h) - max b1.y b2.y)

/-- Intersection-over-Union of two boxes as an exact fraction. -/
def iouFrac (b1 b2 : Box) : Frac :=
  let i := interArea b1 b2
  let u := b1.w * b1.h + b2.w * b2.h - i
  if u ≤ 0 then ⟨0, 1⟩ else ⟨i, u⟩

/-- Modelled from the spec: constant-velocity extrapolation of a track's
position from its last two samples (or the last known position when fewer
than two samples exist). -/
def predictPos (tr : Track) : Pt :=
  match tr.history with
  | (p1, _) :: (p0, _) :: _ => ⟨2 * p1.x - p0.x, 2 * p1.y - p0.y⟩
  | (p1, _) :: [] => p1
  | [] => boxCentroid tr.lastBox

/-- The track's last box translated to its predicted position. -/
def predictBox (tr : Track) : Box :=
  let c := predictPos tr
  ⟨c.x - tr.lastBox.w / 2, c.y - tr.lastBox.h / 2, tr.lastBox.w, tr.lastBox.h⟩

/-- IoU association score between a track's predicted box and a detection. -/
def iouScore (tr : Track) (d : Detection) : Frac := iouFrac (predictBox tr) d.box

/-- Fallback association score: negated squared centroid distance. -/
def distScore (tr : Track) (d : Detection) : Frac :=
  let p := predictPos tr
  let c := boxCentroid d.box
  ⟨-((p.x - c.x) ^ 2 + (p.y - c.y) ^ 2), 1⟩

/-- The best-scoring element of a candidate-pair list, if any. -/
def maxByScore (score : Track → Detection → Frac) :
    List (Track × Detection) → Option (Track × Detection)
  | [] => none
  | p :: ps =>
    match maxByScore score ps with
    | none => some p
    | some q => if fracLe (score q.1 q.2) (score p.1 p.2) then some p else some q

/-- The best remaining (track, detection) pair whose score clears the
threshold, if any. -/
def bestPair (score : Track → Detection → Frac) (thr : Frac)
    (trs : List Track) (dets : List Detection) : Option (Track × Detection) :=
  maxByScore score
    ((trs.flatMap (fun t => dets.map (fun d => (t, d)))).filter
      (fun p => fracLe thr (score p.1 p.2)))

/-- Modelled from the spec: greedy bipartite assignment — repeatedly pick
the best remaining pair above the threshold and remove both from the pool
until no pair clears it.  Returns the matched pairs and the leftover
(unmatched) tracks and detections. -/
def greedyAssign (score : Track → Detection → Frac) (thr : Frac) :
    Nat → List Track → List Detection →
      List (Track × Detection) × List Track × List Detection
  | 0, trs, dets => ([], trs, dets)
  | fuel + 1, trs, dets =>
    match bestPair score thr trs dets with
    | none => ([], trs, dets)
    | some p =>
      let r := greedyAssign score thr fuel (trs.erase p.1) (dets.erase p.2)
      (p :: r.1, r.2)

/-- Modelled from the spec: the configuration parameters the engine
consumes. -/
structure EngineCfg where
  minConf : ℚ
  iouThr : Frac
  maxDist2 : Int
  confirmK : Nat
  tentativeWindow : Nat
  expireM : Nat
  deriving DecidableEq, Repr

/-- Modelled from the spec: association uses IoU of predicted boxes,
falling back to centroid distance when IoU is zero for all pairs. -/
def assign (cfg : EngineCfg) (trs : List Track) (dets : List Detection) :
    List (Track × Detection) × List Track × List Detection :=
  if (trs.flatMap (fun t => dets.map (fun d => (t, d)))).all
      (fun p => (iouScore p.1 p.2).num = 0) then
    greedyAssign distScore ⟨-cfg.maxDist2, 1⟩ trs.length trs dets
  else
    greedyAssign iouScore cfg.iouThr trs.length trs dets

/-- Modelled from the spec: track lifecycle transitions emitted by
`update`. -/
inductive TrackEvent where
  | created (id : Nat)
  | updated (id : Nat)
  | lost (id : Nat)
  | expired (id : Nat)
  deriving DecidableEq, Repr

/-- A matched track: append the observation, reset the unmatched counter,
bump the consecutive-match counter, and promote `Tentative → Confirmed`
after `confirmK` consecutive matches (a `Lost` track re-matched within the
grace window returns to `Confirmed`). -/
def advanceMatched (cfg : EngineCfg) (ts : Int) (p : Track × Detection) : Track :=
  let tr := trackObserve p.1 ⟨boxCentroid p.2.box, ts, p.2.box⟩
  let tr := { tr with unmatched := 0, hits := tr.hits + 1 }
  match tr.state with
  | .tentative => if cfg.confirmK ≤ tr.hits then { tr with state := .confirmed } else tr
  | .lost => { tr with state := .confirmed }
  | _ => tr

/-- An unmatched track ages: the unmatched counter increments; at
`expireM` unmatched frames the track expires; a `Tentative` track that
fails to confirm within its short window is discarded without ever becoming
visible downstream (no lifecycle event); a `Confirmed` track becomes
`Lost`.  Returns the aged track and the lifecycle event, if any. -/
def ageUnmatched (cfg : EngineCfg) (tr : Track) : Track × Option TrackEvent :=
  if cfg.expireM ≤ tr.unmatched + 1 then
    ({ tr with unmatched := tr.unmatched + 1, hits := 0, state := .expired },
     some (.expired tr.id))
  else if tr.state = .tentative ∧ cfg.tentativeWindow ≤ tr.unmatched + 1 then
    ({ tr with unmatched := tr.unmatched + 1, hits := 0, state := .expired }, none)
  else if tr.state = .confirmed then
    ({ tr with unmatched := tr.unmatched + 1, hits := 0, state := .lost },
     some (.lost tr.id))
  else
    ({ tr with unmatched := tr.unmatched + 1, hits := 0 }, none)

/-- Spawn new `Tentative` tracks for unmatched detections, assigning
monotonically increasing identities. -/
def spawnAll (id0 : Nat) (ts : Int) : List Detection → List Track
  | [] => []
  | d :: ds =>
    ⟨id0, [(boxCentroid d.box, ts)], d.box, .tentative, 0, 1, false⟩ ::
      spawnAll (id0 + 1) ts ds

/-- Modelled from the spec: the Tracker's explicit state value — the arena
of active tracks plus the next fresh identity. -/
structure TrackerState where
  tracks : List Track
  nextId : Nat
  deriving DecidableEq, Repr

/-- Modelled from the spec: `update(detections, timestamp)` — filter
malformed/low-confidence detections, associate survivors to active tracks,
age unmatched tracks (removing expired ones in a single sweep), spawn
`Tentative` tracks from unmatched detections, and emit lifecycle events. -/
def trackerUpdate (cfg : EngineCfg) (st : TrackerState) (ts : Int)
    (dets : List Detection) : TrackerState × List TrackEvent :=
  let valid := dets.filter (validDetection cfg.minConf)
  let a := assign cfg st.tracks valid
  let matchedTracks := a.1.map (advanceMatched cfg ts)
  let aged := a.2.1.map (ageUnmatched cfg)
  let survivors := (aged.map Prod.fst).filter (fun tr => tr.state ≠ TrackState.expired)
  let spawned := spawnAll st.nextId ts a.2.2
  ({ tracks := matchedTracks ++ survivors ++ spawned,
     nextId := st.nextId + a.2.2.length },
   spawned.map (fun tr => .created tr.id) ++
     matchedTracks.map (fun tr => .updated tr.id) ++
     aged.filterMap Prod.snd)

/-! ## TTL Reaper -/

/-- Modelled from the spec: a persisted event record in the Event Sink's
durable store — identity, timestamp, and the associated redacted-image file
reference, if any. -/
structure StoredEvent where
  id : Nat
  ts : Int
  image : Option String
  deriving DecidableEq, Repr

/-- Modelled from the spec: the Event Sink's storage — persisted event
records plus the redacted-image files present on disk. -/
structure SinkStore where
  events : List StoredEvent
  files : List String
  deriving DecidableEq, Repr

/-- The 24-hour retention horizon, in milliseconds. -/
def ttl24h : Int := 86400000

/-- Modelled from the spec: `reap(now, ttl)` — deletes the events with
`timestamp < now - ttl` (the cutoff is fixed at sweep start) together with
their associated redacted-image files, and returns the count of deleted
records.  File deletion is best-effort: a file absent from disk is not an
error. -/
def reap (now ttl : Int) (s : SinkStore) : SinkStore × Nat :=
  let cutoff := now - ttl
  let dead := s.events.filter (fun e => e.ts < cutoff)
  let deadFiles := dead.filterMap StoredEvent.image
  ({ events := s.events.filter (fun e => ¬ e.ts < cutoff),
     files := s.files.filter (fun f => ¬ f ∈ deadFiles) },
   dead.length)

/-! ## Concrete fixtures used by witnesses and counterexamples -/

/-- A representative runtime event payload (no plate data). -/
def basePayload : EventPayload :=
  ⟨1, js ("2024-01-01T00:00:00Z"), js ("left"), 1, js ("toward_camera"),
   js ("car"), js ("red"), js ("Toyota - Sedan"), none, none, none, 7, none, none⟩

/-- A payload whose `side` is a malformed value (neither `left` nor
`right`). -/
def bogusSidePayload : EventPayload := { basePayload with side := js ("both") }

/-- A runtime payload carrying license-plate data, as the EventModal
expects to receive. -/
def platePayload : EventPayload :=
  { basePayload with plate_number := some (js ("AB123CD")),
                     plate_snapshot_path := some (js ("plates/42.jpg")) }

/-- A full (50-element) retained list. -/
def fullList : List EventPayload :=
  (List.range 50).map (fun i => { basePayload with id := Int.ofNat i })

/-- A `TrafficEvent` record with every nullable field `null`. -/
def nullFieldsEvent : TrafficEvent :=
  ⟨1, js ("2024-01-01T00:00:00Z"), .left, 1, js ("toward_camera"),
   js ("car"), js ("red"), js ("Unknown"), none, none, none, 7⟩

/-- Demo geometry, left half of the frame: ROI rectangle, horizontal
counting line at `y = 430` tagged `toward_camera`, one lane. -/
def leftSideCfg : SideCfg :=
  ⟨.left, [⟨0, 0⟩, ⟨400, 0⟩, ⟨400, 800⟩, ⟨0, 800⟩], ⟨0, 430⟩, ⟨400, 430⟩,
   .toward_camera, [⟨1, [⟨0, 0⟩, ⟨400, 0⟩, ⟨400, 800⟩, ⟨0, 800⟩]⟩]⟩

/-- Demo geometry, right half: the mirrored side tagged
`away_from_camera`. -/
def rightSideCfg : SideCfg :=
  ⟨.right, [⟨401, 0⟩, ⟨800, 0⟩, ⟨800, 800⟩, ⟨401, 800⟩], ⟨401, 430⟩, ⟨800, 430⟩,
   .away_from_camera, [⟨1, [⟨401, 0⟩, ⟨800, 0⟩, ⟨800, 800⟩, ⟨401, 800⟩]⟩]⟩

/-- The two-sided demo geometry configuration. -/
def demoGeom : GeometryConfig := ⟨[leftSideCfg, rightSideCfg]⟩

/-- A freshly spawned track with no samples. -/
def newTrack (id : Nat) : Track := ⟨id, [], ⟨0, 0, 0, 0⟩, .tentative, 0, 0, false⟩

/-- A trajectory crossing the left counting line (tagged `toward_camera`)
from above to below. -/
def obsToward : List Obs :=
  [⟨⟨200, 400⟩, 1, ⟨180, 380, 40, 40⟩⟩, ⟨⟨200, 460⟩, 2, ⟨180, 440, 40, 40⟩⟩]

/-- The mirrored trajectory, crossing the right counting line (tagged
`away_from_camera`). -/
def obsAway : List Obs :=
  [⟨⟨600, 400⟩, 1, ⟨580, 380, 40, 40⟩⟩, ⟨⟨600, 460⟩, 2, ⟨580, 440, 40, 40⟩⟩]

/-- A trajectory oscillating back and forth across the left counting
line (crosses it three times). -/
def obsOscillate : List Obs :=
  obsToward ++ [⟨⟨200, 400⟩, 3, ⟨180, 380, 40, 40⟩⟩, ⟨⟨200, 460⟩, 4, ⟨180, 440, 40, 40⟩⟩]

/-- Demo engine configuration: minimum confidence 0.25, IoU threshold 0.3,
max association distance 400 px (squared), confirm after 3 matches,
tentative window 3, expire after 30 unmatched frames. -/
def demoCfg : EngineCfg := ⟨mkRat 25 100, ⟨3, 10⟩, 160000, 3, 3, 30⟩

/-- A detection with confidence 0.05 — below the configured minimum. -/
def lowConfDet : Detection := ⟨⟨100, 100, 50, 50⟩, "car", mkRat 5 100⟩

/-- A well-formed detection with confidence 0.9. -/
def goodDet : Detection := ⟨⟨100, 100, 50, 50⟩, "car", mkRat 9 10⟩

/-- The tracker's initial state: no tracks, next identity 0. -/
def emptyTrackerState : TrackerState := ⟨[], 0⟩

/-- Seven consecutive disconnects with no successful open in between. -/
def sevenCloses : List WsEvent := List.replicate 7 .closed

/-- A sample sink store: one stale event (with an image file), one fresh
event, and one unrelated file. -/
def sampleStore : SinkStore :=
  ⟨[⟨1, 0, some "a.jpg"⟩, ⟨2, 100000000, none⟩], ["a.jpg", "other.jpg"]⟩

/-- The crossing result the `obsToward` trajectory produces. -/
def towardCrossing : CrossingResult :=
  ⟨.left, some 1, .toward_camera, 2, ⟨180, 440, 40, 40⟩⟩

/-- The track spawned by one `goodDet` detection on an empty tracker
state. -/
def goodSpawn : Track :=
  ⟨0, [(⟨125, 125⟩, 0)], ⟨100, 100, 50, 50⟩, .tentative, 0, 1, false⟩

/-! # Theorems

Shared helper lemmas first, then one theorem per claim (with witnesses and
counterexamples where applicable). -/

/-- A list is a prefix of itself extended by anything. -/
theorem isPrefixOf_append_self (l t : List Char) : l.isPrefixOf (l ++ t) = true := by
  induction l with
  | nil => simp
  | cons c cs ih => simp [List.isPrefixOf_cons₂, ih]

/-- Destructing a successful prefix test against a cons. -/
theorem isPrefixOf_cons_dest {c : Char} {l p : List Char}
    (h : (c :: l).isPrefixOf p = true) : ∃ t, p = c :: t ∧ l.isPrefixOf t = true := by
  cases p with
  | nil => simp at h
  | cons b bs =>
    simp only [List.isPrefixOf_cons₂, Bool.and_eq_true, beq_iff_eq] at h
    exact ⟨bs, by rw [h.1], h.2⟩

/-- **C1** — counterexample.  At a runtime payload carrying plate data, the
EventModal's rendered content contains the plate-number text `AB123CD` and
a license-plate image: the UI does read and show plate data, contradicting
"no license plate number is ever shown and the UI never renders one". -/
theorem eventModal_shows_plate_cex :
    RenderItem.text (js ("AB123CD")) ∈ eventModalContent platePayload ∧
    RenderItem.image (js ("/snapshots/42.jpg")) "License plate" ∈
      eventModalContent platePayload ∧
    platePayload.plate_number = some (js ("AB123CD")) := by
  refine ⟨?_, ?_, ?_⟩ <;> decide

/-- **C1** (amended).  The declared `TrafficEvent` interface carries no
plate-number or plate-image field, but the UI renders plate data anyway:
for every payload, `EventModal`'s content includes a License Plate section
with the plate-number cell `event.plate_number || 'XXXXX'` (so any
plate number carried by the payload is shown). -/
theorem eventModal_renders_plate_section (e : EventPayload) :
    RenderItem.text (js ("License Plate:")) ∈ eventModalContent e ∧
    RenderItem.text (plateNumberCell e) ∈ eventModalContent e ∧
    decide ("plate_number" ∈ trafficEventFields.map Prod.fst) = false ∧
    decide ("plate_snapshot_path" ∈ trafficEventFields.map Prod.fst) = false := by
  refine ⟨?_, ?_, by decide, by decide⟩ <;>
    cases h1 : jsTruthy e.snapshot_path <;>
      cases h2 : jsTruthy e.plate_snapshot_path <;>
        simp [eventModalContent, plateSection, h1, h2]

/-- Witness for C1 at the plate-carrying payload. -/
theorem eventModal_renders_plate_section_witness :
    RenderItem.text (js ("License Plate:")) ∈ eventModalContent platePayload :=
  (eventModal_renders_plate_section platePayload).1

/-- **C3** — counterexample.  The declared event-record fields differ from
the claimed inventory: the confidence field is named `make_model_conf`, not
`make_model_confidence`, and `make_model` is declared non-nullable
(`string`, not `string | null`), while `bbox` is declared nullable. -/
theorem trafficEvent_fields_cex :
    decide (trafficEventFields = specContractFields) = false ∧
    decide ("make_model_confidence" ∈ specContractFields.map Prod.fst) = true ∧
    decide ("make_model_confidence" ∈ trafficEventFields.map Prod.fst) = false ∧
    decide (("make_model_conf", true) ∈ trafficEventFields) = true ∧
    decide (("make_model", true) ∈ specContractFields) = true ∧
    decide (("make_model", false) ∈ trafficEventFields) = true := by
  refine ⟨?_, ?_, ?_, ?_, ?_, ?_⟩ <;> decide

/-- **C3** (amended).  Every serialized event record carries exactly the
declared fields `id, ts, side, lane, direction, vehicle_type, color,
make_model, make_model_conf, snapshot_path, bbox, track_id`, in that order;
only `make_model_conf`, `snapshot_path` and `bbox` can be `null`
(`make_model` is a non-nullable string), and all three are `null` at the
all-nulls record. -/
theorem trafficEvent_serialized_contract (e : TrafficEvent) :
    e.toFields.map Prod.fst = trafficEventFields.map Prod.fst ∧
    (e.toFields.filter (fun p => p.2.isNull)).all
      (fun p => decide (p.1 ∈ ["make_model_conf", "snapshot_path", "bbox"])) = true ∧
    (nullFieldsEvent.toFields.filter (fun p => p.2.isNull)).map Prod.fst =
      ["make_model_conf", "snapshot_path", "bbox"] := by
  obtain ⟨i, t, sd, ln, dir, vt, co, mm, mmc, sp, bb, ti⟩ := e
  refine ⟨rfl, ?_, by decide⟩
  cases mmc <;> cases sp <;> cases bb <;> rfl

/-- Witness for C3 at the all-nulls record. -/
theorem trafficEvent_serialized_contract_witness :
    nullFieldsEvent.toFields.map Prod.fst = trafficEventFields.map Prod.fst :=
  (trafficEvent_serialized_contract nullFieldsEvent).1

/-- **C7**.  The retained per-side list is a bounded queue: after an
insert the list holds at most 50 events with the new event at the head
(newest first), and inserting into a full 50-element list drops the oldest
retained entry; the handler keeps both side lists within the bound. -/
theorem insertEvent_bounded_queue :
    (∀ (e : EventPayload) (l : List EventPayload),
      (insertEvent e l).length ≤ 50 ∧
      (insertEvent e l).head? = some e ∧
      (l.length = 50 → insertEvent e l = e :: l.dropLast)) ∧
    (∀ (st : AppState) (e : EventPayload),
      st.leftEvents.length ≤ 50 → st.rightEvents.length ≤ 50 →
      (handleEventCreated st e).leftEvents.length ≤ 50 ∧
      (handleEventCreated st e).rightEvents.length ≤ 50) := by
  have hins : ∀ (e : EventPayload) (l : List EventPayload),
      (insertEvent e l).length ≤ 50 := by
    intro e l
    simp [insertEvent, List.length_take]
  constructor
  · intro e l
    refine ⟨hins e l, ?_, ?_⟩
    · simp [insertEvent]
    · intro h50
      have : l.dropLast = l.take 49 := by
        rw [List.dropLast_eq_take, h50]
      simp [insertEvent, List.take_succ_cons, this]
  · intro st e hl hr
    unfold handleEventCreated
    split <;> exact ⟨by first | exact hins e _ | exact hl, by first | exact hins e _ | exact hr⟩

/-- The concrete full list indeed holds 50 events. -/
theorem fullList_length : fullList.length = 50 := by
  unfold fullList
  rw [List.length_map, List.length_range]

/-- Witness for C7 at a concrete full list. -/
theorem insertEvent_bounded_queue_witness :
    insertEvent basePayload fullList = basePayload :: fullList.dropLast ∧
    (handleEventCreated ⟨fullList, []⟩ basePayload).leftEvents.length ≤ 50 :=
  ⟨(insertEvent_bounded_queue.1 basePayload fullList).2.2 fullList_length,
   (insertEvent_bounded_queue.2 ⟨fullList, []⟩ basePayload
     (le_of_eq fullList_length) (by simp)).1⟩

/-- **C8**.  Handling one `event_created` message mutates only the
message's side: a `'left'` message leaves the right list unchanged, and any
other side value (including malformed ones) is inserted into the right list
while the left list is unchanged. -/
theorem handleEvent_side_isolation (st : AppState) (e : EventPayload) :
    (e.side = js ("left") →
      (handleEventCreated st e).rightEvents = st.rightEvents ∧
      (handleEventCreated st e).leftEvents = insertEvent e st.leftEvents) ∧
    (e.side ≠ js ("left") →
      (handleEventCreated st e).leftEvents = st.leftEvents ∧
      (handleEventCreated st e).rightEvents = insertEvent e st.rightEvents) := by
  constructor <;> intro h <;> simp [handleEventCreated, h]

/-- Witness for C8: a `'left'` payload and a malformed-side payload. -/
theorem handleEvent_side_isolation_witness :
    (handleEventCreated ⟨[], []⟩ basePayload).rightEvents = [] ∧
    (handleEventCreated ⟨[], []⟩ bogusSidePayload).leftEvents = [] :=
  ⟨((handleEvent_side_isolation ⟨[], []⟩ basePayload).1 (by decide)).1,
   ((handleEvent_side_isolation ⟨[], []⟩ bogusSidePayload).2 (by decide)).1⟩

/-- Counter invariant for the reconnect loop: along any trace with no
successful open, the number of scheduled reconnects plus the (capped)
starting counter stays within the maximum, and every scheduled delay is
`reconnectDelay`. -/
theorem wsRun_no_open_bound (evs : List WsEvent) (a : Nat)
    (h : WsEvent.opened ∉ evs) :
    (wsRun a evs).2.length + min a maxReconnectAttempts ≤ maxReconnectAttempts ∧
    ∀ d ∈ (wsRun a evs).2, d = reconnectDelay := by
  induction evs generalizing a with
  | nil => simp [wsRun]
  | cons ev rest ih =>
    have hev : ev ≠ WsEvent.opened := by
      intro hEq
      exact h (hEq ▸ List.mem_cons_self ev rest)
    have hrest : WsEvent.opened ∉ rest := fun hm => h (List.mem_cons_of_mem ev hm)
    have hstep : wsStep a ev = attemptReconnect a := by
      cases ev with
      | opened => exact absurd rfl hev
      | closed => rfl
      | connectError => rfl
    by_cases hlt : a < maxReconnectAttempts
    · have harc : attemptReconnect a = (a + 1, some reconnectDelay) := by
        simp [attemptReconnect, hlt]
      have := ih (a + 1) hrest
      constructor
      · simp only [wsRun, hstep, harc]
        simp only [List.length_append, List.length_cons, List.length_nil]
        omega
      · intro d hd
        simp only [wsRun, hstep, harc, List.mem_append] at hd
        rcases hd with hd | hd
        · simpa using hd
        · exact this.2 d hd
    · have harc : attemptReconnect a = (a, none) := by
        simp [attemptReconnect, hlt]
      have := ih a hrest
      constructor
      · simp only [wsRun, hstep, harc]
        simp only [List.nil_append]
        omega
      · intro d hd
        simp only [wsRun, hstep, harc, List.nil_append] at hd
        exact this.2 d hd

/-- **C9**.  Between successful opens the service schedules at most 5
reconnection attempts, each after a 3000 ms delay, and a successful open
resets the consecutive-attempt counter to 0. -/
theorem ws_reconnect_bounded :
    (∀ evs : List WsEvent, WsEvent.opened ∉ evs →
      (wsRun 0 evs).2.length ≤ 5 ∧ ∀ d ∈ (wsRun 0 evs).2, d = 3000) ∧
    (∀ a : Nat, wsStep a WsEvent.opened = (0, none)) ∧
    maxReconnectAttempts = 5 ∧ reconnectDelay = 3000 := by
  refine ⟨?_, fun a => rfl, rfl, rfl⟩
  intro evs h
  have hb := wsRun_no_open_bound evs 0 h
  have h1 := hb.1
  simp only [maxReconnectAttempts] at h1
  exact ⟨by omega, hb.2⟩

/-- Witness for C9: seven straight disconnects schedule only 5
reconnects. -/
theorem ws_reconnect_bounded_witness :
    (wsRun 0 sevenCloses).2.length ≤ 5 :=
  (ws_reconnect_bounded.1 sevenCloses (by decide)).1

/-- Observing a position does not touch the `counted` flag. -/
theorem trackObserve_counted (tr : Track) (o : Obs) :
    (trackObserve tr o).counted = tr.counted := rfl

/-- **C2**.  Over any observation sequence — including adversarial
oscillation across the counting line — a track emits at most one crossing
(none at all if already counted), and its `counted` flag afterwards is set
iff it was already set or the single crossing fired (one false → true
transition, never reset). -/
theorem crossing_at_most_once (g : GeometryConfig) (tr : Track) (os : List Obs) :
    ((runTrack g tr os).2.length ≤ if tr.counted then 0 else 1) ∧
    ((runTrack g tr os).1.counted = (tr.counted || !(runTrack g tr os).2.isEmpty)) := by
  induction os generalizing tr with
  | nil => simp [runTrack]
  | cons o os ih =>
    have hcnt : (trackObserve tr o).counted = tr.counted := rfl
    cases hcounted : tr.counted with
    | true =>
      have h2 : (trackObserve tr o).counted = true := by rw [hcnt, hcounted]
      have hchk : check g (trackObserve tr o) = none := by simp [check, h2]
      have hrun : runTrack g tr (o :: os) = runTrack g (trackObserve tr o) os := by
        simp [runTrack, crossingStep, hchk]
      have hih := ih (trackObserve tr o)
      rw [hrun]
      exact ⟨by simpa [h2] using hih.1, by simpa [h2, hcounted] using hih.2⟩
    | false =>
      cases hc : check g (trackObserve tr o) with
      | none =>
        have hrun : runTrack g tr (o :: os) = runTrack g (trackObserve tr o) os := by
          simp [runTrack, crossingStep, hc]
        have hih := ih (trackObserve tr o)
        rw [hrun]
        exact ⟨by simpa [hcnt, hcounted] using hih.1,
               by simpa [hcnt, hcounted] using hih.2⟩
      | some c =>
        have hstep : crossingStep g tr o = ({ trackObserve tr o with counted := true }, some c) := by
          simp [crossingStep, hc]
        have hrun : runTrack g tr (o :: os) =
            ((runTrack g { trackObserve tr o with counted := true } os).1,
             c :: (runTrack g { trackObserve tr o with counted := true } os).2) := by
          simp [runTrack, hstep]
        have hih := ih { trackObserve tr o with counted := true }
        have h2 : ({ trackObserve tr o with counted := true } : Track).counted = true := rfl
        obtain ⟨hlen, hflag⟩ := hih
        rw [h2] at hlen hflag
        simp only [if_true, Bool.true_or] at hlen hflag
        have hnil : (runTrack g { trackObserve tr o with counted := true } os).2 = [] := by
          have : (runTrack g { trackObserve tr o with counted := true } os).2.length = 0 :=
            Nat.le_zero.mp hlen
          exact List.length_eq_zero.mp this
        rw [hrun]
        constructor
        · simp [hcounted, hnil]
        · simp only [hcounted, Bool.false_or]
          simpa using hflag

/-- Witness for C2: an oscillating trajectory still emits at most one
crossing. -/
theorem crossing_at_most_once_witness :
    (runTrack demoGeom (newTrack 0) obsOscillate).2.length ≤
      if (newTrack 0).counted then 0 else 1 :=
  (crossing_at_most_once demoGeom (newTrack 0) obsOscillate).1

/-- A firing `check` copies side name and direction tag from a configured
side of the geometry. -/
theorem check_tag {g : GeometryConfig} {tr : Track} {c : CrossingResult}
    (h : check g tr = some c) :
    g.sides.any (fun sc =>
      decide (c.direction = sc.tag) && decide (c.side = sc.name)) = true := by
  by_cases hcnt : tr.counted
  · simp [check, hcnt] at h
  · cases hh : tr.history with
    | nil => simp [check, hcnt, hh] at h
    | cons a rest =>
      cases rest with
      | nil => simp [check, hcnt, hh] at h
      | cons b rest2 =>
        obtain ⟨curr, ts⟩ := a
        obtain ⟨prev, ts2⟩ := b
        cases hres : resolveSide g curr with
        | none => simp [check, hcnt, hh, hres] at h
        | some sc =>
          by_cases hsg :
              lineSign sc.lineA sc.lineB prev * lineSign sc.lineA sc.lineB curr < 0
          · simp only [check, hcnt, if_false, Bool.false_eq_true, hh, hres, hsg,
              if_true] at h
            have hmem : sc ∈ g.sides := List.mem_of_find?_eq_some hres
            rw [List.any_eq_true]
            refine ⟨sc, hmem, ?_⟩
            have hcc := Option.some.inj h
            rw [← hcc]
            simp
          · simp [check, hcnt, hh, hres, hsg] at h

/-- Every crossing emitted along a run originates from a firing `check`. -/
theorem runTrack_crossing_src (g : GeometryConfig) (tr : Track) (os : List Obs) :
    ∀ c ∈ (runTrack g tr os).2, ∃ t, check g t = some c := by
  induction os generalizing tr with
  | nil => simp [runTrack]
  | cons o os ih =>
    intro c hc
    cases hchk : check g (trackObserve tr o) with
    | none =>
      have hrun : runTrack g tr (o :: os) = runTrack g (trackObserve tr o) os := by
        simp [runTrack, crossingStep, hchk]
      rw [hrun] at hc
      exact ih (trackObserve tr o) c hc
    | some c' =>
      have hstep : crossingStep g tr o =
          ({ trackObserve tr o with counted := true }, some c') := by
        simp [crossingStep, hchk]
      have hrun : runTrack g tr (o :: os) =
          ((runTrack g { trackObserve tr o with counted := true } os).1,
           c' :: (runTrack g { trackObserve tr o with counted := true } os).2) := by
        simp [runTrack, hstep]
      rw [hrun] at hc
      rcases List.mem_cons.mp hc with hEq | hm
      · exact ⟨trackObserve tr o, hEq ▸ hchk⟩
      · exact ih { trackObserve tr o with counted := true } c hm

/-- **C5**.  An emitted crossing's `direction` always equals the direction
tag configured for a side of the geometry (the sign change only gates
whether a crossing happened); concretely, the trajectory crossing the side
tagged `toward_camera` yields `toward_camera` and the mirrored trajectory
on the side tagged `away_from_camera` yields `away_from_camera`. -/
theorem crossing_direction_from_tag :
    (∀ (g : GeometryConfig) (tr : Track) (os : List Obs) (c : CrossingResult),
      c ∈ (runTrack g tr os).2 →
      g.sides.any (fun sc =>
        decide (c.direction = sc.tag) && decide (c.side = sc.name)) = true) ∧
    (runTrack demoGeom (newTrack 0) obsToward).2.map CrossingResult.direction =
      [DirTag.toward_camera] ∧
    (runTrack demoGeom (newTrack 1) obsAway).2.map CrossingResult.direction =
      [DirTag.away_from_camera] := by
  refine ⟨?_, by decide, by decide⟩
  intro g tr os c hc
  obtain ⟨t, ht⟩ := runTrack_crossing_src g tr os c hc
  exact check_tag ht

/-- Witness for C5 at the concrete toward-camera crossing. -/
theorem crossing_direction_from_tag_witness :
    demoGeom.sides.any (fun sc =>
      decide (towardCrossing.direction = sc.tag) &&
        decide (towardCrossing.side = sc.name)) = true :=
  crossing_direction_from_tag.1 demoGeom (newTrack 0) obsToward towardCrossing (by decide)

/-- The best-scoring candidate comes from the candidate list. -/
theorem maxByScore_mem {score : Track → Detection → Frac} :
    ∀ {l : List (Track × Detection)} {p}, maxByScore score l = some p → p ∈ l := by
  intro l
  induction l with
  | nil => intro p h; simp [maxByScore] at h
  | cons q qs ih =>
    intro p h
    simp only [maxByScore] at h
    cases hm : maxByScore score qs with
    | none =>
      rw [hm] at h
      exact (Option.some.inj h) ▸ List.mem_cons_self q qs
    | some r =>
      rw [hm] at h
      cases hf : fracLe (score r.1 r.2) (score q.1 q.2) with
      | true =>
        simp only [hf, if_true] at h
        exact (Option.some.inj h) ▸ List.mem_cons_self q qs
      | false =>
        simp only [hf, Bool.false_eq_true, if_false] at h
        exact List.mem_cons_of_mem q ((Option.some.inj h) ▸ ih hm)

/-- The best remaining pair is drawn from the current pools. -/
theorem bestPair_mem {score : Track → Detection → Frac} {thr : Frac}
    {trs : List Track} {dets : List Detection} {p : Track × Detection}
    (h : bestPair score thr trs dets = some p) : p.1 ∈ trs ∧ p.2 ∈ dets := by
  have hp := maxByScore_mem h
  have hp2 := (List.mem_filter.mp hp).1
  obtain ⟨t, ht, hmap⟩ := List.mem_flatMap.mp hp2
  obtain ⟨d, hd, hEq⟩ := List.mem_map.mp hmap
  rw [← hEq]
  exact ⟨ht, hd⟩

/-- Greedy assignment only pairs up, and only leaves over, elements of the
input pools. -/
theorem greedyAssign_mem (score : Track → Detection → Frac) (thr : Frac) :
    ∀ (fuel : Nat) (trs : List Track) (dets : List Detection),
      (∀ p ∈ (greedyAssign score thr fuel trs dets).1, p.1 ∈ trs ∧ p.2 ∈ dets) ∧
      (∀ t ∈ (greedyAssign score thr fuel trs dets).2.1, t ∈ trs) ∧
      (∀ d ∈ (greedyAssign score thr fuel trs dets).2.2, d ∈ dets) := by
  intro fuel
  induction fuel with
  | zero => intro trs dets; simp [greedyAssign]
  | succ n ih =>
    intro trs dets
    cases hb : bestPair score thr trs dets with
    | none => simp [greedyAssign, hb]
    | some p =>
      have hp := bestPair_mem hb
      have ihr := ih (trs.erase p.1) (dets.erase p.2)
      refine ⟨?_, ?_, ?_⟩
      · intro q hq
        simp only [greedyAssign, hb, List.mem_cons] at hq
        rcases hq with hq | hq
        · rw [hq]; exact hp
        · have := ihr.1 q hq
          exact ⟨List.erase_subset _ _ this.1, List.erase_subset _ _ this.2⟩
      · intro t ht
        simp only [greedyAssign, hb] at ht
        exact List.erase_subset _ _ (ihr.2.1 t ht)
      · intro d hd
        simp only [greedyAssign, hb] at hd
        exact List.erase_subset _ _ (ihr.2.2 d hd)

/-- Association (either scoring mode) draws from the input pools. -/
theorem assign_mem (cfg : EngineCfg) (trs : List Track) (dets : List Detection) :
    (∀ p ∈ (assign cfg trs dets).1, p.1 ∈ trs ∧ p.2 ∈ dets) ∧
    (∀ t ∈ (assign cfg trs dets).2.1, t ∈ trs) ∧
    (∀ d ∈ (assign cfg trs dets).2.2, d ∈ dets) := by
  unfold assign
  split
  · exact greedyAssign_mem distScore ⟨-cfg.maxDist2, 1⟩ trs.length trs dets
  · exact greedyAssign_mem iouScore cfg.iouThr trs.length trs dets

/-- Advancing a matched track keeps its identity. -/
theorem advanceMatched_id (cfg : EngineCfg) (ts : Int) (p : Track × Detection) :
    (advanceMatched cfg ts p).id = p.1.id := by
  simp only [advanceMatched, trackObserve]
  split <;> (try split) <;> rfl

/-- Aging an unmatched track keeps its identity. -/
theorem ageUnmatched_id (cfg : EngineCfg) (tr : Track) :
    (ageUnmatched cfg tr).1.id = tr.id := by
  unfold ageUnmatched
  split_ifs <;> rfl

/-- Every spawned track carries the box of one of the spawning
detections. -/
theorem spawnAll_mem (ts : Int) :
    ∀ (id0 : Nat) (ds : List Detection) (tr : Track),
      tr ∈ spawnAll id0 ts ds → ∃ d ∈ ds, tr.lastBox = d.box := by
  intro id0 ds
  induction ds generalizing id0 with
  | nil => intro tr h; simp [spawnAll] at h
  | cons d ds ih =>
    intro tr h
    simp only [spawnAll, List.mem_cons] at h
    rcases h with hEq | hm
    · exact ⟨d, List.mem_cons_self d ds, by rw [hEq]⟩
    · obtain ⟨d', hd', hb⟩ := ih (id0 + 1) tr hm
      exact ⟨d', List.mem_cons_of_mem d hd', hb⟩

/-- **C6**.  After an update, every track either pre-existed (its identity
was already in the state) or was spawned by a detection that passed input
validation (confidence at least the configured minimum, positive width and
height); concretely, a single detection with confidence 0.05 under minimum
0.25 yields no tracks and no events. -/
theorem tracker_spawn_only_valid :
    (∀ (cfg : EngineCfg) (st : TrackerState) (ts : Int) (dets : List Detection)
        (tr : Track),
      tr ∈ (trackerUpdate cfg st ts dets).1.tracks →
      tr.id ∈ st.tracks.map Track.id ∨
      dets.any (fun d =>
        validDetection cfg.minConf d && decide (tr.lastBox = d.box)) = true) ∧
    (trackerUpdate demoCfg emptyTrackerState 0 [lowConfDet]).1.tracks = [] ∧
    (trackerUpdate demoCfg emptyTrackerState 0 [lowConfDet]).2 = [] ∧
    validDetection demoCfg.minConf lowConfDet = false := by
  refine ⟨?_, by decide, by decide, by decide⟩
  intro cfg st ts dets tr htr
  simp only [trackerUpdate, List.mem_append] at htr
  rcases htr with (hm | hs) | hsp
  · -- matched track
    obtain ⟨p, hp, hadv⟩ := List.mem_map.mp hm
    have hid : tr.id = p.1.id := by rw [← hadv, advanceMatched_id]
    have hmem := ((assign_mem cfg st.tracks _).1 p hp).1
    exact Or.inl (hid ▸ List.mem_map.mpr ⟨p.1, hmem, rfl⟩)
  · -- aged survivor
    have hs2 := (List.mem_filter.mp hs).1
    obtain ⟨x, hx, hfst⟩ := List.mem_map.mp hs2
    obtain ⟨t, ht, hage⟩ := List.mem_map.mp hx
    have hid : tr.id = t.id := by
      rw [← hfst, ← hage, ageUnmatched_id]
    have hmem := (assign_mem cfg st.tracks _).2.1 t ht
    exact Or.inl (hid ▸ List.mem_map.mpr ⟨t, hmem, rfl⟩)
  · -- freshly spawned track
    obtain ⟨d, hd, hbox⟩ := spawnAll_mem ts st.nextId _ tr hsp
    have hdv := (assign_mem cfg st.tracks _).2.2 d hd
    have hdf := List.mem_filter.mp hdv
    refine Or.inr (List.any_eq_true.mpr ⟨d, hdf.1, ?_⟩)
    simp [hdf.2, hbox]

/-- Witness for C6: the track spawned by a valid detection is accounted
for by that detection. -/
theorem tracker_spawn_only_valid_witness :
    goodSpawn.id ∈ emptyTrackerState.tracks.map Track.id ∨
    [goodDet].any (fun d =>
      validDetection demoCfg.minConf d && decide (goodSpawn.lastBox = d.box)) = true :=
  tracker_spawn_only_valid.1 demoCfg emptyTrackerState 0 [goodDet] goodSpawn (by decide)

/-- **C4**.  A TTL sweep at `now = T` with `ttl = 24h` keeps exactly the
events with `ts ≥ T - 24h` (in order, untouched), reports as deleted
exactly the events with `ts < T - 24h`, removes exactly the image files
associated with deleted events, and a second sweep immediately afterwards
deletes 0 records. -/
theorem reap_ttl_contract (s : SinkStore) (T : Int) :
    ((reap T ttl24h s).1.events = s.events.filter (fun e => ¬ e.ts < T - ttl24h)) ∧
    ((reap T ttl24h s).2 = (s.events.filter (fun e => e.ts < T - ttl24h)).length) ∧
    (∀ f, f ∈ (reap T ttl24h s).1.files ↔
      f ∈ s.files ∧ ∀ e ∈ s.events, e.ts < T - ttl24h → e.image ≠ some f) ∧
    ((reap T ttl24h (reap T ttl24h s).1).2 = 0) := by
  refine ⟨rfl, rfl, ?_, ?_⟩
  · intro f
    simp only [reap, List.mem_filter, List.mem_filterMap, decide_eq_true_eq]
    constructor
    · rintro ⟨hf, hnd⟩
      exact ⟨hf, fun e he hts him => hnd ⟨e, ⟨he, hts⟩, him⟩⟩
    · rintro ⟨hf, hall⟩
      refine ⟨hf, ?_⟩
      rintro ⟨e, ⟨he, hts⟩, him⟩
      exact hall e he hts him
  · have hnil : (s.events.filter (fun e => ¬ e.ts < T - ttl24h)).filter
        (fun e => e.ts < T - ttl24h) = [] := by
      rw [List.filter_eq_nil_iff]
      intro e he
      have h2 := (List.mem_filter.mp he).2
      simp only [decide_eq_true_eq] at h2 ⊢
      exact h2
    simp only [reap, hnil, List.length_nil]

/-- Witness for C4 at the concrete sample store. -/
theorem reap_ttl_contract_witness :
    (reap 90000000 ttl24h (reap 90000000 ttl24h sampleStore).1).2 = 0 ∧
    (reap 90000000 ttl24h sampleStore).2 = 1 :=
  ⟨(reap_ttl_contract sampleStore 90000000).2.2.2,
   by rw [(reap_ttl_contract sampleStore 90000000).2.1]; decide⟩

/-- `js` literal shapes used by the URL-helper proofs. -/
theorem js_snapshots_cons : js ("/snapshots/") = '/' :: js ("snapshots/") := rfl

/-- The `http` literal starts with `'h'`. -/
theorem js_http_cons : js ("http") = 'h' :: js ("ttp") := rfl

/-- The `/` literal as an explicit list. -/
theorem js_slash : js ("/") = ['/'] := rfl

/-- A cons string is truthy. -/
theorem jsTruthyStr_cons (c : Char) (x : JStr) : jsTruthyStr (c :: x) = true := rfl

/-- A slash-headed string does not start with `http`. -/
theorem startsWith_http_slash_cons (x : JStr) :
    startsWith ('/' :: x) (js ("http")) = false := by
  simp [startsWith, js_http_cons, List.isPrefixOf_cons₂]

/-- A slash-headed string starts with `/`. -/
theorem startsWith_slash_cons (x : JStr) :
    startsWith ('/' :: x) (js ("/")) = true := by
  simp [startsWith, js_slash, List.isPrefixOf_cons₂]

/-- Prefixing a slash onto a `snapshots/…` path yields a `/snapshots/…`
path. -/
theorem startsWith_snap_cons {x : JStr}
    (hx : startsWith x (js ("snapshots/")) = true) :
    startsWith ('/' :: x) (js ("/snapshots/")) = true := by
  rw [startsWith, js_snapshots_cons]
  simp only [List.isPrefixOf_cons₂, beq_self_eq_true, Bool.true_and]
  exact hx

/-- Appending after the `/snapshots/` literal keeps the prefix. -/
theorem startsWith_snapshots_append (t : JStr) :
    startsWith (js ("snapshots/") ++ t) (js ("snapshots/")) = true := by
  rw [startsWith]
  exact isPrefixOf_append_self _ _

/-- A string starting with a cons pattern is headed by that character. -/
theorem startsWith_head {c : Char} {l p : JStr}
    (h : startsWith p (c :: l) = true) : ∃ t, p = c :: t := by
  rw [startsWith] at h
  obtain ⟨t, ht, -⟩ := isPrefixOf_cons_dest h
  exact ⟨t, ht⟩

/-- Every non-null output of the EventModal helper is one of its fixed
points and is `http`-prefixed or root-relative. -/
theorem getSnapshotUrlModal_fix {p r : JStr}
    (h : getSnapshotUrlModal (some p) = some r) :
    getSnapshotUrlModal (some r) = some r ∧
    (startsWith r (js ("http")) || startsWith r (js ("/"))) = true := by
  simp only [getSnapshotUrlModal] at h
  by_cases h0 : jsTruthyStr p = true
  · by_cases h1 : startsWith p (js ("http")) = true
    · -- http-prefixed input is returned unchanged
      simp [h0, h1] at h
      subst h
      exact ⟨by simp [getSnapshotUrlModal, h0, h1], by simp [h1]⟩
    · by_cases h2 : startsWith p (js ("/snapshots/")) = true
      · -- already-rooted `/snapshots/…` path is returned unchanged
        simp [h0, h1, h2] at h
        subst h
        refine ⟨by simp [getSnapshotUrlModal, h0, h1, h2], ?_⟩
        have h2' : startsWith p ('/' :: js ("snapshots/")) = true := by
          rw [← js_snapshots_cons]; exact h2
        obtain ⟨t, rfl⟩ := startsWith_head h2'
        simp [startsWith_slash_cons]
      · by_cases h3 : startsWith p (js ("snapshots/")) = true
        · -- un-rooted `snapshots/…` path gains a leading slash
          simp [h0, h1, h2, h3] at h
          subst h
          exact ⟨by simp [getSnapshotUrlModal, jsTruthyStr_cons,
                   startsWith_http_slash_cons, startsWith_snap_cons h3],
                 by simp [startsWith_slash_cons]⟩
        · -- fallback: `/snapshots/` + last path segment
          simp [h0, h1, h2, h3] at h
          subst h
          have hshape : js ("/snapshots/") ++ lastSegment p =
              '/' :: (js ("snapshots/") ++ lastSegment p) := rfl
          rw [hshape]
          exact ⟨by simp [getSnapshotUrlModal, jsTruthyStr_cons,
                   startsWith_http_slash_cons,
                   startsWith_snap_cons (startsWith_snapshots_append (lastSegment p))],
                 by simp [startsWith_slash_cons]⟩
  · simp [h0] at h

/-- Every non-null output of the SidePanel helper is one of its fixed
points and is `http`-prefixed or root-relative. -/
theorem getSnapshotUrlPanel_fix {p r : JStr}
    (h : getSnapshotUrlPanel (some p) = some r) :
    getSnapshotUrlPanel (some r) = some r ∧
    (startsWith r (js ("http")) || startsWith r (js ("/"))) = true := by
  simp only [getSnapshotUrlPanel] at h
  by_cases h0 : jsTruthyStr p = true
  · by_cases h1 : startsWith p (js ("http")) = true
    · simp [h0, h1] at h
      subst h
      exact ⟨by simp [getSnapshotUrlPanel, h0, h1], by simp [h1]⟩
    · by_cases h2 : startsWith p (js ("/")) = true
      · simp [h0, h1, h2] at h
        subst h
        exact ⟨by simp [getSnapshotUrlPanel, h0, h1, h2], by simp [h2]⟩
      · simp [h0, h1, h2] at h
        subst h
        exact ⟨by simp [getSnapshotUrlPanel, jsTruthyStr_cons,
                 startsWith_http_slash_cons, startsWith_slash_cons],
               by simp [startsWith_slash_cons]⟩
  · simp [h0] at h

/-- **C10**.  Both snapshot-URL helpers map `null` to `null`, are
idempotent on every string path, and every non-null result starts with
`http` or with `/`. -/
theorem snapshotUrl_helpers_contract :
    (getSnapshotUrlModal none = none ∧ getSnapshotUrlPanel none = none) ∧
    ∀ p : JStr,
      getSnapshotUrlModal (getSnapshotUrlModal (some p)) = getSnapshotUrlModal (some p) ∧
      getSnapshotUrlPanel (getSnapshotUrlPanel (some p)) = getSnapshotUrlPanel (some p) ∧
      (getSnapshotUrlModal (some p)).all
        (fun r => startsWith r (js ("http")) || startsWith r (js ("/"))) = true ∧
      (getSnapshotUrlPanel (some p)).all
        (fun r => startsWith r (js ("http")) || startsWith r (js ("/"))) = true := by
  refine ⟨⟨rfl, rfl⟩, fun p => ?_⟩
  refine ⟨?_, ?_, ?_, ?_⟩
  · cases hm : getSnapshotUrlModal (some p) with
    | none => rfl
    | some r => exact (getSnapshotUrlModal_fix hm).1
  · cases hm : getSnapshotUrlPanel (some p) with
    | none => rfl
    | some r => exact (getSnapshotUrlPanel_fix hm).1
  · cases hm : getSnapshotUrlModal (some p) with
    | none => rfl
    | some r => simpa [Option.all] using (getSnapshotUrlModal_fix hm).2
  · cases hm : getSnapshotUrlPanel (some p) with
    | none => rfl
    | some r => simpa [Option.all] using (getSnapshotUrlPanel_fix hm).2

/-- Witness for C10 at a concrete bare path. -/
theorem snapshotUrl_helpers_contract_witness :
    getSnapshotUrlModal (getSnapshotUrlModal (some (js ("plates/42.jpg")))) =
      getSnapshotUrlModal (some (js ("plates/42.jpg"))) :=
  (snapshotUrl_helpers_contract.2 (js ("plates/42.jpg"))).1

end TrafficHud
